import Mathlib

set_option autoImplicit false

/-!
Shallow embedding of the bidirectional sheet/database sync service
(`backend/services/syncEngine.js`, `backend/routes/sheetWebhook.js`,
`backend/routes/dbWebhook.js`).

Modelling conventions:
* JavaScript field values are the inductive `JsVal`; strict (in)equality
  `!==` is decidable equality on `JsVal`.
* A table row is `EntityRecord`: the business columns are an association
  list `fields` (first binding of a key wins, like a JS object read),
  kept separate from the bookkeeping columns `source`, `version`,
  `updated_at` that the engine always overwrites explicitly.
* The durable state is `Store`: the single tracked table (`users`), the
  auto-increment counter, and the append-only `sync_conflicts` and
  `webhook_audit` tables.
* `event.version` is `Option Nat`; the JS truthiness test
  `if (!event.version)` treats the number `0` like an absent version, and
  the embedding reproduces that (`v == 0` branch in `isStaleUpdate`).
* `event.timestamp` is `Option Nat` (epoch instant); `none` models a
  missing/falsy timestamp, and `new Date(a) > new Date(b)` is `b < a`.
* `new Date().toISOString()` / SQL `NOW()` is an explicit `now : Nat`
  argument threaded through the functions that stamp it.
* The engine's possible return objects (`{error: 'Record not found'}`,
  `{status:'ignored', reason}`, `{status:'success', ...}`,
  `{error: 'Unknown operation'}`) form the sum type `SyncResult`; the
  embedded engine is a total function `Store → … → Store × SyncResult`,
  mirroring that the JS engine returns these outcomes rather than
  throwing.
-/

namespace SheetSync

/-- A JavaScript value held in a business field of a row or a change set. -/
inductive JsVal where
  | str (s : String)
  | num (n : Int)
  | boolean (b : Bool)
  | nullV
  deriving DecidableEq

/-- Origin tag of a record's last writer or of a sync event
(`'SHEET' | 'DB' | 'MANUAL'`). -/
inductive Source where
  | SHEET
  | DB
  | MANUAL
  deriving DecidableEq

/-- First binding of key `k` in an association list, i.e. the JS object
read `obj[k]` (`none` plays the role of `undefined`). -/
def lookupField (fs : List (String × JsVal)) (k : String) : Option JsVal :=
  (fs.find? (fun p => p.1 == k)).map (fun p => p.2)

/-- A row of the tracked table: business columns plus the bookkeeping
columns `source`, `version`, `updated_at` maintained by the engine. -/
structure EntityRecord where
  id : Nat
  fields : List (String × JsVal)
  source : Source
  version : Nat
  updated_at : Nat
  deriving DecidableEq

/-- A normalized sync event as consumed by `processSyncEvent`. -/
structure SyncEvent where
  source : Source
  rowId : Nat
  tableId : String
  operation : String
  changes : List (String × JsVal)
  version : Option Nat
  timestamp : Option Nat
  deriving DecidableEq

/-- One per-field conflict entry produced by `detectConflict`. -/
structure FieldConflict where
  field : String
  currentValue : JsVal
  incomingValue : JsVal
  deriving DecidableEq

/-- A row of the append-only `sync_conflicts` audit table. -/
structure ConflictRow where
  table_name : String
  row_id : Nat
  sheet_value : JsVal
  db_value : JsVal
  resolved_value : JsVal
  resolution_strategy : String
  deriving DecidableEq

/-- A row of the append-only `webhook_audit` table (only the status column
matters to the properties below). -/
structure AuditRow where
  status : String
  deriving DecidableEq

/-- The durable state: the tracked `users` table, the auto-increment
counter, and the two append-only audit tables. -/
structure Store where
  recs : List EntityRecord
  nextId : Nat
  conflicts : List ConflictRow
  audit : List AuditRow
  deriving DecidableEq

/-- The shapes the JS engine can return:
`{error:'Record not found'}`, `{status:'ignored', reason}`,
`{status:'success', operation, rowId, newVersion?}`, and
`{error:'Unknown operation'}`. -/
inductive SyncResult where
  | errRecordNotFound
  | ignored (reason : String)
  | success (operation : String) (rowId : Nat) (newVersion : Option Nat)
  | errUnknownOperation
  deriving DecidableEq

/-- Embeds `SELECT * FROM t WHERE id = ? LIMIT 1` on a list of rows. -/
def findRec (recs : List EntityRecord) (rowId : Nat) : Option EntityRecord :=
  recs.find? (fun r => r.id == rowId)

/-- Embeds `getRecord` of `syncEngine.js` (single tracked table). -/
def getRecord (s : Store) (rowId : Nat) : Option EntityRecord :=
  findRec s.recs rowId

/-- Embeds `isStaleUpdate` of `syncEngine.js`:
`if (!event.version) return false; return event.version <= currentRecord.version;`
(the truthiness test makes version `0` behave like an absent version). -/
def isStaleUpdate (currentRecord : EntityRecord) (event : SyncEvent) : Bool :=
  match event.version with
  | none => false
  | some v => if v == 0 then false else decide (v ≤ currentRecord.version)

/-- Embeds `shouldIgnoreLoopback` of `syncEngine.js`:
`currentRecord.source === source && currentRecord.source !== 'MANUAL'`. -/
def shouldIgnoreLoopback (currentRecord : EntityRecord) (source : Source) : Bool :=
  decide (currentRecord.source = source) && decide (currentRecord.source ≠ Source.MANUAL)

/-- Embeds `detectConflict` of `syncEngine.js`: a changed field conflicts when the
record's current value is defined and differs (strict `!==`) from the
incoming value; returns `null` when no field conflicts. -/
def detectConflict (currentRecord : EntityRecord) (event : SyncEvent) :
    Option (List FieldConflict) :=
  let conflicts := event.changes.filterMap (fun fv =>
    match lookupField currentRecord.fields fv.1 with
    | none => none
    | some cur => if cur = fv.2 then none else some ⟨fv.1, cur, fv.2⟩)
  if conflicts.isEmpty then none else some conflicts

/-- Last-write-wins choice for one conflicting field
(`event.timestamp && new Date(event.timestamp) > new Date(currentRecord.updated_at)`). -/
def lwwResolve (currentRecord : EntityRecord) (event : SyncEvent)
    (c : FieldConflict) : JsVal :=
  match event.timestamp with
  | some ts => if currentRecord.updated_at < ts then c.incomingValue else c.currentValue
  | none => c.currentValue

/-- The `resolvedChanges` object built by `resolveConflict`. -/
def resolvedChanges (currentRecord : EntityRecord) (event : SyncEvent)
    (conflicts : List FieldConflict) : List (String × JsVal) :=
  conflicts.map (fun c => (c.field, lwwResolve currentRecord event c))

/-- Embeds `logConflict` of `syncEngine.js`: one `sync_conflicts` row appended per
conflicting field. -/
def logConflict (s : Store) (tableId : String) (rowId : Nat)
    (conflicts : List FieldConflict) (resolved : List (String × JsVal)) : Store :=
  { s with conflicts := s.conflicts ++ conflicts.map (fun c =>
      { table_name := tableId
        row_id := rowId
        sheet_value := c.incomingValue
        db_value := c.currentValue
        resolved_value := (lookupField resolved c.field).getD JsVal.nullV
        resolution_strategy := "last_write_wins" }) }

/-- The JS object spread `{...fs, ...cs}` restricted to lookup semantics:
keys of `cs` override keys of `fs`. -/
def mergeFields : List (String × JsVal) → List (String × JsVal) → List (String × JsVal)
  | [], cs => cs
  | (k, v) :: fs, cs => (k, (lookupField cs k).getD v) :: mergeFields fs cs

/-- Effect on one matching row of the SQL
`UPDATE t SET <changes>, source = ?, version = ?, updated_at = NOW() WHERE id = ?`. -/
def applyRow (r : EntityRecord) (changes : List (String × JsVal))
    (source : Source) (newVersion : Nat) (now : Nat) : EntityRecord :=
  { r with
    fields := mergeFields r.fields changes
    source := source
    version := newVersion
    updated_at := now }

/-- Embeds `applyUpdate` of `syncEngine.js`. The new version is
`(currentRecord.version || 0) + 1`; the `version = 0` branch mirrors the
JS truthiness of `||`. -/
def applyUpdate (s : Store) (currentRecord : EntityRecord) (event : SyncEvent)
    (now : Nat) : Store × SyncResult :=
  if event.operation = "UPDATE" then
    let newVersion := (if currentRecord.version = 0 then 0 else currentRecord.version) + 1
    ({ s with recs := s.recs.map (fun r =>
        if r.id = currentRecord.id then
          applyRow r event.changes event.source newVersion now
        else r) },
     SyncResult.success "UPDATE" currentRecord.id (some newVersion))
  else if event.operation = "DELETE" then
    ({ s with recs := s.recs.filter (fun r => r.id != currentRecord.id) },
     SyncResult.success "DELETE" currentRecord.id none)
  else
    (s, SyncResult.errUnknownOperation)

/-- Embeds `resolveConflict` of `syncEngine.js` (strategy is always
last-write-wins): build `resolvedChanges`, log the conflicts, then apply
the event with its changes replaced by the resolved ones. -/
def resolveConflict (s : Store) (currentRecord : EntityRecord) (event : SyncEvent)
    (conflicts : List FieldConflict) (now : Nat) : Store × SyncResult :=
  let resolved := resolvedChanges currentRecord event conflicts
  let s1 := logConflict s event.tableId currentRecord.id conflicts resolved
  applyUpdate s1 currentRecord { event with changes := resolved } now

/-- Embeds `insertRecord` of `syncEngine.js`:
`INSERT INTO t (<data>, source, version) VALUES (..., 'SHEET', 1)` —
the source column is the literal `'SHEET'` and the version the literal 1;
the new id is the auto-increment counter (`result.insertId`). -/
def insertRecord (s : Store) (data : List (String × JsVal)) (now : Nat) :
    Store × SyncResult :=
  ({ s with
      recs := s.recs ++ [{ id := s.nextId, fields := data, source := Source.SHEET,
                           version := 1, updated_at := now }]
      nextId := s.nextId + 1 },
   SyncResult.success "INSERT" s.nextId (some 1))

/-- Embeds `processSyncEvent` of `syncEngine.js`: fetch the current row, dispatch
on absence/INSERT, then stale check, loopback check, conflict detection,
and finally conflict resolution or plain application. -/
def processSyncEvent (s : Store) (event : SyncEvent) (now : Nat) :
    Store × SyncResult :=
  match getRecord s event.rowId with
  | none =>
    if event.operation = "INSERT" then insertRecord s event.changes now
    else (s, SyncResult.errRecordNotFound)
  | some currentRecord =>
    if isStaleUpdate currentRecord event then
      (s, SyncResult.ignored "stale_version")
    else if shouldIgnoreLoopback currentRecord event.source then
      (s, SyncResult.ignored "loopback")
    else
      match detectConflict currentRecord event with
      | some conflicts => resolveConflict s currentRecord event conflicts now
      | none => applyUpdate s currentRecord event now

/-- Raw body of a spreadsheet webhook call; `row = 0` and `sheetName = ""`
encode the falsy values the JS guards test with `!payload.row` /
`!payload.sheetName`. -/
structure SheetPayload where
  row : Nat
  column : Nat
  oldValue : Option JsVal
  newValue : JsVal
  sheetName : String
  deriving DecidableEq

/-- The fixed position → field mapping of `parseSheetEvent`. -/
def columnMap : Nat → Option String
  | 1 => some "id"
  | 2 => some "name"
  | 3 => some "email"
  | 4 => some "salary"
  | _ => none

/-- Embeds `parseSheetEvent` of `routes/sheetWebhook.js`: reject a falsy row or
sheet name, an unmapped column, and the id column; otherwise emit a
single-field SHEET/UPDATE event stamped with the current time. -/
def parseSheetEvent (payload : SheetPayload) (now : Nat) : Option SyncEvent :=
  if payload.row = 0 ∨ payload.sheetName = "" then none
  else
    match columnMap payload.column with
    | none => none
    | some field =>
      if field = "id" then none
      else some
        { source := Source.SHEET
          rowId := payload.row
          tableId := "users"
          operation := "UPDATE"
          changes := [(field, payload.newValue)]
          version := none
          timestamp := some now }

/-- Raw body of a database webhook call; `rowId = 0`, `tableId = ""` and
`operation = ""` encode the falsy values tested by the JS guard. -/
structure DbPayload where
  tableId : String
  rowId : Nat
  operation : String
  changes : Option (List (String × JsVal))
  version : Option Nat
  deriving DecidableEq

/-- Embeds `parseDbEvent` of `routes/dbWebhook.js`: requires `tableId`, `rowId`
and `operation`; `changes` defaults to `{}` and `version` to 1
(`payload.version || 1`, so a zero version also becomes 1). -/
def parseDbEvent (payload : DbPayload) (now : Nat) : Option SyncEvent :=
  if payload.tableId = "" ∨ payload.rowId = 0 ∨ payload.operation = "" then none
  else some
    { source := Source.DB
      rowId := payload.rowId
      tableId := payload.tableId
      operation := payload.operation
      changes := payload.changes.getD []
      version := some (match payload.version with
        | none => 1
        | some v => if v = 0 then 1 else v)
      timestamp := some now }

/-- Embeds `logWebhookAudit` of `syncEngine.js`: append one `webhook_audit` row. -/
def logWebhookAudit (s : Store) (status : String) : Store :=
  { s with audit := s.audit ++ [{ status := status }] }

/-- HTTP outcome of a webhook route: 200 with the engine result, or 400
`{error:'Invalid payload'}`. -/
inductive HttpResponse where
  | ok (result : SyncResult)
  | badRequest
  deriving DecidableEq

/-- The `POST /sheet/webhook` handler: audit `RECEIVED`, normalize, answer
400 when normalization fails, otherwise process and audit `PROCESSED`. -/
def sheetWebhookRoute (s : Store) (payload : SheetPayload) (now : Nat) :
    Store × HttpResponse :=
  let s1 := logWebhookAudit s "RECEIVED"
  match parseSheetEvent payload now with
  | none => (s1, HttpResponse.badRequest)
  | some event =>
    let out := processSyncEvent s1 event now
    (logWebhookAudit out.1 "PROCESSED", HttpResponse.ok out.2)

/-- The `POST /db/webhook` handler, same shape as the sheet route. -/
def dbWebhookRoute (s : Store) (payload : DbPayload) (now : Nat) :
    Store × HttpResponse :=
  let s1 := logWebhookAudit s "RECEIVED"
  match parseDbEvent payload now with
  | none => (s1, HttpResponse.badRequest)
  | some event =>
    let out := processSyncEvent s1 event now
    (logWebhookAudit out.1 "PROCESSED", HttpResponse.ok out.2)

/-- Database well-formedness of the tracked table: primary-key uniqueness
and the auto-increment counter strictly above every existing id. -/
def StoreWF (s : Store) : Prop :=
  (s.recs.map EntityRecord.id).Nodup ∧ ∀ r ∈ s.recs, r.id < s.nextId

/-- Fold a list of events through the engine (the store after a sequence
of webhook deliveries). -/
def processAll (s : Store) (events : List SyncEvent) (now : Nat) : Store :=
  events.foldl (fun s e => (processSyncEvent s e now).1) s

/-- The result is a successful applied UPDATE of row `id`. -/
def isAppliedUpdate (res : SyncResult) (id : Nat) : Bool :=
  match res with
  | SyncResult.success op rowId _ => op == "UPDATE" && rowId == id
  | _ => false

/-- Every event in the list, processed in sequence, yields an applied
UPDATE of row `id`. -/
def allApplied (s : Store) (id : Nat) (now : Nat) : List SyncEvent → Bool
  | [] => true
  | e :: es =>
    isAppliedUpdate (processSyncEvent s e now).2 id &&
      allApplied (processSyncEvent s e now).1 id now es

/-- Version of row `id` as stored, `none` when the row is absent. -/
def recVersion (s : Store) (id : Nat) : Option Nat :=
  (getRecord s id).map EntityRecord.version

/-! ### Helper lemmas about the embedded operations -/

theorem findRec_id {recs : List EntityRecord} {k : Nat} {r : EntityRecord}
    (h : findRec recs k = some r) : r.id = k := by
  have := List.find?_some h
  simpa using this

theorem findRec_mem {recs : List EntityRecord} {k : Nat} {r : EntityRecord}
    (h : findRec recs k = some r) : r ∈ recs :=
  List.mem_of_find?_eq_some h

theorem findRec_cons (r : EntityRecord) (recs : List EntityRecord) (k : Nat) :
    findRec (r :: recs) k = if r.id = k then some r else findRec recs k := by
  by_cases h : r.id = k
  · simp [findRec, List.find?, h]
  · have hb : (r.id == k) = false := by simp [h]
    simp [findRec, List.find?, hb, h]

theorem findRec_map {g : EntityRecord → EntityRecord}
    (hg : ∀ r, (g r).id = r.id) (recs : List EntityRecord) (k : Nat) :
    findRec (recs.map g) k = (findRec recs k).map g := by
  induction recs with
  | nil => rfl
  | cons r recs ih =>
    rw [List.map_cons, findRec_cons, findRec_cons, hg r]
    by_cases h : r.id = k <;> simp [h, ih]

theorem findRec_append_new {recs : List EntityRecord} {k : Nat}
    (h : ∀ r ∈ recs, r.id ≠ k) (newRec : EntityRecord) (hnew : newRec.id = k) :
    findRec (recs ++ [newRec]) k = some newRec := by
  induction recs with
  | nil => simp [findRec, List.find?, hnew]
  | cons r recs ih =>
    rw [List.cons_append, findRec_cons]
    have hr : r.id ≠ k := h r (by simp)
    simp only [hr, if_false]
    exact ih (fun x hx => h x (by simp [hx]))

theorem lookupField_cons (k0 : String) (v0 : JsVal)
    (fs : List (String × JsVal)) (k : String) :
    lookupField ((k0, v0) :: fs) k = if k0 = k then some v0 else lookupField fs k := by
  by_cases h : k0 = k
  · simp [lookupField, List.find?, h]
  · have hb : (k0 == k) = false := by simp [h]
    simp [lookupField, List.find?, hb, h]

theorem lookupField_mergeFields (fs cs : List (String × JsVal)) (k : String) :
    lookupField (mergeFields fs cs) k = (lookupField cs k).or (lookupField fs k) := by
  induction fs with
  | nil => simp [mergeFields, lookupField]
  | cons p fs ih =>
    obtain ⟨k0, v0⟩ := p
    rw [mergeFields, lookupField_cons, lookupField_cons]
    by_cases h : k0 = k
    · subst h
      cases hcs : lookupField cs k0 <;> simp [hcs]
    · simp [h, ih]

theorem lookupField_eq_none {cs : List (String × JsVal)} {k : String} :
    lookupField cs k = none ↔ ∀ p ∈ cs, p.1 ≠ k := by
  simp [lookupField, List.find?_eq_none]

theorem detectConflict_mem {r : EntityRecord} {e : SyncEvent}
    {confs : List FieldConflict} (h : detectConflict r e = some confs) :
    ∀ c ∈ confs, lookupField r.fields c.field = some c.currentValue ∧
      (c.field, c.incomingValue) ∈ e.changes ∧ c.currentValue ≠ c.incomingValue := by
  intro c hc
  simp only [detectConflict] at h
  split at h
  · exact absurd h (by simp)
  · rename_i hne
    obtain rfl : _ = confs := Option.some.inj h
    obtain ⟨fv, hfv, hmk⟩ := List.mem_filterMap.mp hc
    revert hmk
    cases hcur : lookupField r.fields fv.1 with
    | none => intro hmk; exact absurd hmk (by simp)
    | some cur =>
      intro hmk
      by_cases heq : cur = fv.2
      · exact absurd hmk (by simp [heq])
      · simp only [heq, if_false, Option.some.injEq] at hmk
        subst hmk
        exact ⟨hcur, hfv, heq⟩

theorem versionBump (v : Nat) : (if v = 0 then 0 else v) + 1 = v + 1 := by
  by_cases h : v = 0 <;> simp [h]

theorem logConflict_recs (s : Store) (t : String) (i : Nat)
    (cs : List FieldConflict) (rs : List (String × JsVal)) :
    (logConflict s t i cs rs).recs = s.recs := rfl

theorem applyRow_id (r : EntityRecord) (cs : List (String × JsVal))
    (src : Source) (nv now : Nat) : (applyRow r cs src nv now).id = r.id := rfl

theorem applyUpdate_update {s : Store} {r : EntityRecord} {e : SyncEvent} {now : Nat}
    (hop : e.operation = "UPDATE") :
    applyUpdate s r e now =
      ({ s with recs := s.recs.map (fun x =>
          if x.id = r.id then applyRow x e.changes e.source (r.version + 1) now else x) },
       SyncResult.success "UPDATE" r.id (some (r.version + 1))) := by
  simp [applyUpdate, hop, versionBump]

theorem processSyncEvent_notFound {s : Store} {e : SyncEvent} {now : Nat}
    (hr : getRecord s e.rowId = none) (hop : e.operation ≠ "INSERT") :
    processSyncEvent s e now = (s, SyncResult.errRecordNotFound) := by
  simp [processSyncEvent, hr, hop]

theorem processSyncEvent_insert {s : Store} {e : SyncEvent} {now : Nat}
    (hr : getRecord s e.rowId = none) (hop : e.operation = "INSERT") :
    processSyncEvent s e now = insertRecord s e.changes now := by
  simp [processSyncEvent, hr, hop]

theorem processSyncEvent_stale {s : Store} {e : SyncEvent} {now : Nat}
    {r : EntityRecord} (hr : getRecord s e.rowId = some r)
    (hstale : isStaleUpdate r e = true) :
    processSyncEvent s e now = (s, SyncResult.ignored "stale_version") := by
  simp [processSyncEvent, hr, hstale]

theorem processSyncEvent_loopback {s : Store} {e : SyncEvent} {now : Nat}
    {r : EntityRecord} (hr : getRecord s e.rowId = some r)
    (hstale : isStaleUpdate r e = false)
    (hloop : shouldIgnoreLoopback r e.source = true) :
    processSyncEvent s e now = (s, SyncResult.ignored "loopback") := by
  simp [processSyncEvent, hr, hstale, hloop]

theorem processSyncEvent_conflict {s : Store} {e : SyncEvent} {now : Nat}
    {r : EntityRecord} {confs : List FieldConflict}
    (hr : getRecord s e.rowId = some r)
    (hstale : isStaleUpdate r e = false)
    (hloop : shouldIgnoreLoopback r e.source = false)
    (hconf : detectConflict r e = some confs) :
    processSyncEvent s e now = resolveConflict s r e confs now := by
  simp [processSyncEvent, hr, hstale, hloop, hconf]

theorem processSyncEvent_noConflict {s : Store} {e : SyncEvent} {now : Nat}
    {r : EntityRecord} (hr : getRecord s e.rowId = some r)
    (hstale : isStaleUpdate r e = false)
    (hloop : shouldIgnoreLoopback r e.source = false)
    (hconf : detectConflict r e = none) :
    processSyncEvent s e now = applyUpdate s r e now := by
  simp [processSyncEvent, hr, hstale, hloop, hconf]

theorem processSyncEvent_update_shape {s : Store} {e : SyncEvent} (now : Nat)
    {r : EntityRecord}
    (hr : getRecord s e.rowId = some r)
    (hstale : isStaleUpdate r e = false)
    (hloop : shouldIgnoreLoopback r e.source = false)
    (hop : e.operation = "UPDATE") :
    ∃ cs : List (String × JsVal),
      (processSyncEvent s e now).2 =
        SyncResult.success "UPDATE" r.id (some (r.version + 1)) ∧
      (processSyncEvent s e now).1.recs = s.recs.map (fun x =>
        if x.id = r.id then applyRow x cs e.source (r.version + 1) now else x) ∧
      (processSyncEvent s e now).1.audit = s.audit ∧
      (processSyncEvent s e now).1.nextId = s.nextId := by
  cases hconf : detectConflict r e with
  | none =>
    refine ⟨e.changes, ?_⟩
    rw [processSyncEvent_noConflict hr hstale hloop hconf, applyUpdate_update hop]
    exact ⟨rfl, rfl, rfl, rfl⟩
  | some confs =>
    refine ⟨resolvedChanges r e confs, ?_⟩
    rw [processSyncEvent_conflict hr hstale hloop hconf, resolveConflict,
      applyUpdate_update (e := { e with changes := resolvedChanges r e confs })
        (by simpa using hop)]
    exact ⟨rfl, rfl, rfl, rfl⟩

theorem applyUpdate_success_op {s : Store} {r : EntityRecord} {e : SyncEvent}
    {now : Nat} {op : String} {id : Nat} {nv : Option Nat}
    (h : (applyUpdate s r e now).2 = SyncResult.success op id nv) :
    op = e.operation := by
  by_cases hu : e.operation = "UPDATE"
  · rw [applyUpdate_update hu] at h
    obtain ⟨h1, -, -⟩ := SyncResult.success.inj h
    rw [hu, ← h1]
  · by_cases hd : e.operation = "DELETE"
    · simp only [applyUpdate] at h
      rw [if_neg hu, if_pos hd] at h
      obtain ⟨h1, -, -⟩ := SyncResult.success.inj h
      rw [hd, ← h1]
    · simp only [applyUpdate] at h
      rw [if_neg hu, if_neg hd] at h
      exact SyncResult.noConfusion h

theorem applied_step {s : Store} {e : SyncEvent} {now : Nat} {id : Nat}
    {nv : Option Nat}
    (h : (processSyncEvent s e now).2 = SyncResult.success "UPDATE" id nv) :
    ∃ v, recVersion s id = some v ∧ nv = some (v + 1) ∧
      recVersion (processSyncEvent s e now).1 id = some (v + 1) := by
  cases hrec : getRecord s e.rowId with
  | none =>
    by_cases hop : e.operation = "INSERT"
    · rw [processSyncEvent_insert hrec hop] at h
      obtain ⟨h1, -, -⟩ := SyncResult.success.inj h
      exact absurd h1 (by decide)
    · rw [processSyncEvent_notFound hrec hop] at h
      exact SyncResult.noConfusion h
  | some r =>
    cases hstale : isStaleUpdate r e with
    | true =>
      rw [processSyncEvent_stale hrec hstale] at h
      exact SyncResult.noConfusion h
    | false =>
      cases hloop : shouldIgnoreLoopback r e.source with
      | true =>
        rw [processSyncEvent_loopback hrec hstale hloop] at h
        exact SyncResult.noConfusion h
      | false =>
        by_cases hop : e.operation = "UPDATE"
        · obtain ⟨cs, hres, hrecs, -, -⟩ :=
            processSyncEvent_update_shape now hrec hstale hloop hop
          rw [hres] at h
          obtain ⟨-, hid, hnv⟩ := SyncResult.success.inj h
          have hrow : r.id = e.rowId := findRec_id hrec
          have hpres : ∀ x : EntityRecord,
              ((fun x => if x.id = r.id then
                  applyRow x cs e.source (r.version + 1) now else x) x).id = x.id := by
            intro x
            by_cases hx : x.id = r.id <;> simp [applyRow, hx]
          refine ⟨r.version, ?_, hnv.symm, ?_⟩
          · rw [← hid, recVersion, getRecord, hrow]
            rw [getRecord] at hrec
            rw [hrec]
            rfl
          · rw [← hid, recVersion, getRecord, hrecs, findRec_map hpres, hrow]
            rw [getRecord] at hrec
            rw [hrec]
            simp only [Option.map_some']
            rw [if_pos hrow]
            rfl
        · exfalso
          cases hconf : detectConflict r e with
          | none =>
            rw [processSyncEvent_noConflict hrec hstale hloop hconf] at h
            exact hop (applyUpdate_success_op h).symm
          | some confs =>
            rw [processSyncEvent_conflict hrec hstale hloop hconf, resolveConflict] at h
            exact hop (applyUpdate_success_op h).symm

theorem lookupField_resolvedChanges (r : EntityRecord) (e : SyncEvent)
    (confs : List FieldConflict) (f : String) :
    lookupField (resolvedChanges r e confs) f =
      (confs.find? (fun c => c.field == f)).map (lwwResolve r e) := by
  induction confs with
  | nil => rfl
  | cons c confs ih =>
    rw [resolvedChanges, List.map_cons, lookupField_cons]
    by_cases h : c.field = f
    · have hb : (c.field == f) = true := by simp [h]
      simp [List.find?, hb, h]
    · have hb : (c.field == f) = false := by simp [h]
      simp only [List.find?, hb, h, if_false]
      exact ih

theorem conflict_path_store {s : Store} {e : SyncEvent} {now : Nat}
    {r : EntityRecord} {confs : List FieldConflict}
    (hr : getRecord s e.rowId = some r)
    (hstale : isStaleUpdate r e = false)
    (hloop : shouldIgnoreLoopback r e.source = false)
    (hop : e.operation = "UPDATE")
    (hconf : detectConflict r e = some confs) :
    (processSyncEvent s e now).1.recs = s.recs.map (fun x =>
      if x.id = r.id then
        applyRow x (resolvedChanges r e confs) e.source (r.version + 1) now
      else x) := by
  rw [processSyncEvent_conflict hr hstale hloop hconf, resolveConflict,
    applyUpdate_update (e := { e with changes := resolvedChanges r e confs })
      (by simpa using hop)]
  rfl

theorem getRecord_update_shape {s : Store} {e : SyncEvent} {now : Nat}
    {r : EntityRecord} {cs : List (String × JsVal)}
    (hr : getRecord s e.rowId = some r)
    (hrecs : (processSyncEvent s e now).1.recs = s.recs.map (fun x =>
      if x.id = r.id then applyRow x cs e.source (r.version + 1) now else x)) :
    getRecord (processSyncEvent s e now).1 e.rowId =
      some (applyRow r cs e.source (r.version + 1) now) := by
  have hrow : r.id = e.rowId := findRec_id hr
  have hpres : ∀ x : EntityRecord, ((fun x => if x.id = r.id then
      applyRow x cs e.source (r.version + 1) now else x) x).id = x.id := by
    intro x
    by_cases hx : x.id = r.id <;> simp [applyRow, hx]
  rw [getRecord, hrecs, findRec_map hpres]
  rw [getRecord] at hr
  rw [hr]
  simp

theorem applyUpdate_audit (s : Store) (r : EntityRecord) (e : SyncEvent)
    (now : Nat) : (applyUpdate s r e now).1.audit = s.audit := by
  by_cases h1 : e.operation = "UPDATE"
  · rw [applyUpdate_update h1]
  · by_cases h2 : e.operation = "DELETE" <;> simp [applyUpdate, h1, h2]

theorem processSyncEvent_audit (s : Store) (e : SyncEvent) (now : Nat) :
    (processSyncEvent s e now).1.audit = s.audit := by
  cases hrec : getRecord s e.rowId with
  | none =>
    by_cases hop : e.operation = "INSERT"
    · rw [processSyncEvent_insert hrec hop]
      rfl
    · rw [processSyncEvent_notFound hrec hop]
  | some r =>
    cases hstale : isStaleUpdate r e with
    | true => rw [processSyncEvent_stale hrec hstale]
    | false =>
      cases hloop : shouldIgnoreLoopback r e.source with
      | true => rw [processSyncEvent_loopback hrec hstale hloop]
      | false =>
        cases hconf : detectConflict r e with
        | none =>
          rw [processSyncEvent_noConflict hrec hstale hloop hconf]
          exact applyUpdate_audit s r e now
        | some confs =>
          rw [processSyncEvent_conflict hrec hstale hloop hconf, resolveConflict]
          exact applyUpdate_audit _ r _ now

theorem nodup_id_eq {recs : List EntityRecord}
    (h : (recs.map EntityRecord.id).Nodup) {a b : EntityRecord}
    (ha : a ∈ recs) (hb : b ∈ recs) (hid : a.id = b.id) : a = b :=
  List.inj_on_of_nodup_map h ha hb hid

theorem applyUpdate_recs_cases (s : Store) (r : EntityRecord) (e : SyncEvent)
    (now : Nat) :
    (applyUpdate s r e now).1.recs = s.recs.map (fun x =>
      if x.id = r.id then applyRow x e.changes e.source (r.version + 1) now
      else x) ∨
    (applyUpdate s r e now).1.recs = s.recs.filter (fun x => x.id != r.id) ∨
    (applyUpdate s r e now).1.recs = s.recs := by
  by_cases h1 : e.operation = "UPDATE"
  · left
    rw [applyUpdate_update h1]
  · by_cases h2 : e.operation = "DELETE"
    · right; left
      simp [applyUpdate, h1, h2]
    · right; right
      simp [applyUpdate, h1, h2]

theorem applyUpdate_version_mono {s : Store} {rf : EntityRecord}
    {e : SyncEvent} {now : Nat}
    (hnodup : (s.recs.map EntityRecord.id).Nodup) (hrf : rf ∈ s.recs)
    {r r' : EntityRecord} (hr : r ∈ s.recs)
    (hr' : r' ∈ (applyUpdate s rf e now).1.recs) (hid : r'.id = r.id) :
    r.version ≤ r'.version := by
  rcases applyUpdate_recs_cases s rf e now with h | h | h
  · rw [h] at hr'
    obtain ⟨x, hx, hgx⟩ := List.mem_map.mp hr'
    by_cases hxid : x.id = rf.id
    · rw [if_pos hxid] at hgx
      subst hgx
      have hxr : x = r := nodup_id_eq hnodup hx hr hid
      have hxrf : x = rf := nodup_id_eq hnodup hx hrf hxid
      rw [← hxr, hxrf]
      show rf.version ≤ rf.version + 1
      exact Nat.le_succ _
    · rw [if_neg hxid] at hgx
      subst hgx
      exact le_of_eq (by rw [nodup_id_eq hnodup hx hr hid])
  · rw [h] at hr'
    exact le_of_eq (by rw [nodup_id_eq hnodup (List.mem_of_mem_filter hr') hr hid])
  · rw [h] at hr'
    exact le_of_eq (by rw [nodup_id_eq hnodup hr' hr hid])

/-! ### Claim theorems -/

/-- C1: for every existing record and every UPDATE sync event that passes the
stale and loopback checks and has at least one conflicting field,
last-write-wins resolution is deterministic with a strict greater-than
tie-break: each conflicting field resolves to the incoming value exactly when
the event timestamp is strictly later than the record's `updated_at`, and to
the record's current value otherwise (equal or earlier); one conflict record
is appended per conflicting field in both cases, and the resolved update is
applied. -/
theorem C1_lww_strict_tiebreak
    (s : Store) (e : SyncEvent) (now : Nat) (r : EntityRecord)
    (confs : List FieldConflict) (ts : Nat)
    (hr : getRecord s e.rowId = some r)
    (hstale : isStaleUpdate r e = false)
    (hloop : shouldIgnoreLoopback r e.source = false)
    (hop : e.operation = "UPDATE")
    (hconf : detectConflict r e = some confs)
    (hts : e.timestamp = some ts) :
    resolvedChanges r e confs = confs.map (fun c =>
      (c.field, if r.updated_at < ts then c.incomingValue else c.currentValue)) ∧
    (processSyncEvent s e now).1.conflicts =
      s.conflicts ++ confs.map (fun c =>
        { table_name := e.tableId
          row_id := r.id
          sheet_value := c.incomingValue
          db_value := c.currentValue
          resolved_value :=
            (lookupField (resolvedChanges r e confs) c.field).getD JsVal.nullV
          resolution_strategy := "last_write_wins" }) ∧
    (processSyncEvent s e now).2 =
      SyncResult.success "UPDATE" r.id (some (r.version + 1)) := by
  refine ⟨by simp [resolvedChanges, lwwResolve, hts], ?_, ?_⟩ <;>
    (rw [processSyncEvent_conflict hr hstale hloop hconf, resolveConflict,
      applyUpdate_update (e := { e with changes := resolvedChanges r e confs })
        (by simpa using hop)]
     try rfl)

/-- Sample record for the C1 witness: `{name:"Bob"}`, version 1, source SHEET,
`updated_at` 10. -/
def c1Rec : EntityRecord :=
  { id := 1, fields := [("name", JsVal.str "Bob")], source := Source.SHEET,
    version := 1, updated_at := 10 }

/-- Sample store for the C1 witness. -/
def c1Store : Store :=
  { recs := [c1Rec], nextId := 2, conflicts := [], audit := [] }

/-- Sample event for the C1 witness: DB UPDATE `{name:"Alice"}`, timestamp 20. -/
def c1Event : SyncEvent :=
  { source := Source.DB, rowId := 1, tableId := "users", operation := "UPDATE",
    changes := [("name", JsVal.str "Alice")], version := none,
    timestamp := some 20 }

/-- The single field conflict the C1 witness detects. -/
def c1Confs : List FieldConflict :=
  [{ field := "name", currentValue := JsVal.str "Bob",
     incomingValue := JsVal.str "Alice" }]

/-- Witness for C1: record `{name:"Bob", updated_at:10}` and DB event
`{changes:{name:"Alice"}, timestamp:20}`: one conflicting field, resolved to
`"Alice"` since `20 > 10`, one conflict row appended. -/
theorem C1_lww_strict_tiebreak_witness :
    detectConflict c1Rec c1Event = some c1Confs ∧
    (resolvedChanges c1Rec c1Event c1Confs = c1Confs.map (fun c =>
      (c.field, if c1Rec.updated_at < 20 then c.incomingValue else c.currentValue)) ∧
    (processSyncEvent c1Store c1Event 20).1.conflicts =
      c1Store.conflicts ++ c1Confs.map (fun c =>
        { table_name := c1Event.tableId
          row_id := c1Rec.id
          sheet_value := c.incomingValue
          db_value := c.currentValue
          resolved_value :=
            (lookupField (resolvedChanges c1Rec c1Event c1Confs) c.field).getD
              JsVal.nullV
          resolution_strategy := "last_write_wins" }) ∧
    (processSyncEvent c1Store c1Event 20).2 =
      SyncResult.success "UPDATE" c1Rec.id (some (c1Rec.version + 1))) :=
  ⟨by decide,
   C1_lww_strict_tiebreak c1Store c1Event 20 c1Rec c1Confs 20
     (by decide) (by decide) (by decide) rfl (by decide) rfl⟩

/-- C3: for every existing record, a stale event is ignored as
`stale_version` before the loopback check is consulted; a non-stale event
whose source matches the record's non-MANUAL source is ignored as
`loopback` with the store untouched (so before conflict detection — no
conflict row is written); and the same non-stale UPDATE arriving from a
different source is applied. -/
theorem C3_loopback_after_stale_before_conflict
    (s : Store) (e : SyncEvent) (now : Nat) (r : EntityRecord)
    (hr : getRecord s e.rowId = some r) :
    (isStaleUpdate r e = true →
      processSyncEvent s e now = (s, SyncResult.ignored "stale_version")) ∧
    (isStaleUpdate r e = false → r.source = e.source → e.source ≠ Source.MANUAL →
      processSyncEvent s e now = (s, SyncResult.ignored "loopback")) ∧
    (isStaleUpdate r e = false → r.source ≠ e.source → e.operation = "UPDATE" →
      (processSyncEvent s e now).2 =
        SyncResult.success "UPDATE" r.id (some (r.version + 1))) := by
  refine ⟨fun h => processSyncEvent_stale hr h, ?_, ?_⟩
  · intro hstale hsrc hman
    have hloop : shouldIgnoreLoopback r e.source = true := by
      simp [shouldIgnoreLoopback, hsrc, hman]
    exact processSyncEvent_loopback hr hstale hloop
  · intro hstale hsrc hop
    have hloop : shouldIgnoreLoopback r e.source = false := by
      simp [shouldIgnoreLoopback, hsrc]
    obtain ⟨cs, hres, -, -, -⟩ :=
      processSyncEvent_update_shape now hr hstale hloop hop
    exact hres

/-- Sample record for the C3 witness: source SHEET, version 1. -/
def c3Rec : EntityRecord :=
  { id := 1, fields := [("name", JsVal.str "x")], source := Source.SHEET,
    version := 1, updated_at := 10 }

/-- Sample store for the C3 witness. -/
def c3Store : Store :=
  { recs := [c3Rec], nextId := 2, conflicts := [], audit := [] }

/-- C3 witness event: SHEET-origin UPDATE with higher version. -/
def c3EventSheet : SyncEvent :=
  { source := Source.SHEET, rowId := 1, tableId := "users",
    operation := "UPDATE", changes := [("name", JsVal.str "y")],
    version := some 2, timestamp := some 20 }

/-- C3 witness event: the same UPDATE from the DB side. -/
def c3EventDb : SyncEvent :=
  { source := Source.DB, rowId := 1, tableId := "users",
    operation := "UPDATE", changes := [("name", JsVal.str "y")],
    version := some 2, timestamp := some 20 }

/-- C3 witness event: a stale SHEET-origin UPDATE (version 1 against
version 1). -/
def c3EventStale : SyncEvent :=
  { source := Source.SHEET, rowId := 1, tableId := "users",
    operation := "UPDATE", changes := [("name", JsVal.str "y")],
    version := some 1, timestamp := some 20 }

/-- Witness for C3: against a `source=SHEET` record, the higher-version
SHEET event is ignored as loopback with the store unchanged, the same DB
event is applied, and the stale variant is ignored as `stale_version`. -/
theorem C3_loopback_after_stale_before_conflict_witness :
    processSyncEvent c3Store c3EventStale 20 =
      (c3Store, SyncResult.ignored "stale_version") ∧
    processSyncEvent c3Store c3EventSheet 20 =
      (c3Store, SyncResult.ignored "loopback") ∧
    (processSyncEvent c3Store c3EventDb 20).2 =
      SyncResult.success "UPDATE" c3Rec.id (some (c3Rec.version + 1)) :=
  ⟨(C3_loopback_after_stale_before_conflict c3Store c3EventStale 20 c3Rec
      (by decide)).1 (by decide),
   (C3_loopback_after_stale_before_conflict c3Store c3EventSheet 20 c3Rec
      (by decide)).2.1 (by decide) (by decide) (by decide),
   (C3_loopback_after_stale_before_conflict c3Store c3EventDb 20 c3Rec
      (by decide)).2.2 (by decide) (by decide) rfl⟩

/-- C5 counterexample: on an empty store, a DB-origin INSERT event creates
the record with `source = SHEET` (the hardcoded literal in `insertRecord`),
not with the event's source DB as the claim states. -/
theorem C5_counterexample :
    (getRecord (processSyncEvent
        { recs := [], nextId := 1, conflicts := [], audit := [] }
        { source := Source.DB, rowId := 7, tableId := "users",
          operation := "INSERT", changes := [("name", JsVal.str "John")],
          version := none, timestamp := some 5 } 5).1 1).map EntityRecord.source =
      some Source.SHEET ∧ Source.SHEET ≠ Source.DB := by
  decide

/-- C5 amended: for every INSERT sync event targeting a missing row, the
engine creates the record with `version = 1` and with `source = SHEET`
regardless of the event's source (both DB-origin and SHEET-origin INSERTs
store source SHEET). -/
theorem C5_insert_version_one_source_sheet
    (s : Store) (e : SyncEvent) (now : Nat)
    (hr : getRecord s e.rowId = none) (hop : e.operation = "INSERT")
    (hwf : StoreWF s) :
    getRecord (processSyncEvent s e now).1 s.nextId =
      some { id := s.nextId, fields := e.changes, source := Source.SHEET,
             version := 1, updated_at := now } ∧
    (processSyncEvent s e now).2 = SyncResult.success "INSERT" s.nextId (some 1) := by
  rw [processSyncEvent_insert hr hop]
  refine ⟨?_, rfl⟩
  show findRec (s.recs ++ [_]) s.nextId = _
  exact findRec_append_new (fun x hx => Nat.ne_of_lt (hwf.2 x hx)) _ rfl

/-- Witness for C5 amended: the DB-origin INSERT of the counterexample
stores `{source := SHEET, version := 1}`. -/
theorem C5_insert_version_one_source_sheet_witness :
    getRecord (processSyncEvent
        { recs := [], nextId := 1, conflicts := [], audit := [] }
        { source := Source.DB, rowId := 7, tableId := "users",
          operation := "INSERT", changes := [("name", JsVal.str "John")],
          version := none, timestamp := some 5 } 5).1 1 =
      some { id := 1, fields := [("name", JsVal.str "John")],
             source := Source.SHEET, version := 1, updated_at := 5 } ∧
    (processSyncEvent
        { recs := [], nextId := 1, conflicts := [], audit := [] }
        { source := Source.DB, rowId := 7, tableId := "users",
          operation := "INSERT", changes := [("name", JsVal.str "John")],
          version := none, timestamp := some 5 } 5).2 =
      SyncResult.success "INSERT" 1 (some 1) :=
  C5_insert_version_one_source_sheet
    { recs := [], nextId := 1, conflicts := [], audit := [] }
    { source := Source.DB, rowId := 7, tableId := "users",
      operation := "INSERT", changes := [("name", JsVal.str "John")],
      version := none, timestamp := some 5 } 5
    (by decide) rfl (by simp [StoreWF])

/-- C7: the embedded engine is a total function into `Store × SyncResult`:
stale, loopback, conflict, and not-found all surface as ordinary result
values. In particular a non-INSERT event against a missing record yields
the benign `{error:'Record not found'}` value with the store untouched;
stale and loopback yield `ignored` values with the store untouched; a
conflicting UPDATE yields a `success` value. -/
theorem C7_expected_outcomes_are_values
    (s : Store) (e : SyncEvent) (now : Nat) :
    (getRecord s e.rowId = none → e.operation ≠ "INSERT" →
      processSyncEvent s e now = (s, SyncResult.errRecordNotFound)) ∧
    (∀ r, getRecord s e.rowId = some r → isStaleUpdate r e = true →
      processSyncEvent s e now = (s, SyncResult.ignored "stale_version")) ∧
    (∀ r, getRecord s e.rowId = some r → isStaleUpdate r e = false →
      shouldIgnoreLoopback r e.source = true →
      processSyncEvent s e now = (s, SyncResult.ignored "loopback")) ∧
    (∀ r confs, getRecord s e.rowId = some r → isStaleUpdate r e = false →
      shouldIgnoreLoopback r e.source = false →
      detectConflict r e = some confs → e.operation = "UPDATE" →
      (processSyncEvent s e now).2 =
        SyncResult.success "UPDATE" r.id (some (r.version + 1))) := by
  refine ⟨fun hr hop => processSyncEvent_notFound hr hop,
    fun r hr h => processSyncEvent_stale hr h,
    fun r hr h1 h2 => processSyncEvent_loopback hr h1 h2,
    fun r confs hr h1 h2 hconf hop => ?_⟩
  obtain ⟨cs, hres, -, -, -⟩ :=
    processSyncEvent_update_shape now hr h1 h2 hop
  exact hres

/-- Witness for C7: a DELETE aimed at an empty store returns the benign
not-found value and leaves the store unchanged. -/
theorem C7_expected_outcomes_are_values_witness :
    processSyncEvent
      { recs := [], nextId := 1, conflicts := [], audit := [] }
      { source := Source.DB, rowId := 3, tableId := "users",
        operation := "DELETE", changes := [], version := none,
        timestamp := some 5 } 5 =
      ({ recs := [], nextId := 1, conflicts := [], audit := [] },
       SyncResult.errRecordNotFound) :=
  (C7_expected_outcomes_are_values
    { recs := [], nextId := 1, conflicts := [], audit := [] }
    { source := Source.DB, rowId := 3, tableId := "users",
      operation := "DELETE", changes := [], version := none,
      timestamp := some 5 } 5).1 (by decide) (by decide)

/-- C9: when an UPDATE event has at least one conflicting field, the update
actually applied consists exactly of the resolved values of the conflicting
fields: the stored row becomes `applyRow` of the resolved changes, a changed
field that is `undefined` on the current record stays `undefined` (it is
silently dropped, never written), and any field outside the conflict set
keeps its previous value. -/
theorem C9_only_resolved_conflicts_written
    (s : Store) (e : SyncEvent) (now : Nat) (r : EntityRecord)
    (confs : List FieldConflict)
    (hr : getRecord s e.rowId = some r)
    (hstale : isStaleUpdate r e = false)
    (hloop : shouldIgnoreLoopback r e.source = false)
    (hop : e.operation = "UPDATE")
    (hconf : detectConflict r e = some confs) :
    getRecord (processSyncEvent s e now).1 e.rowId =
      some (applyRow r (resolvedChanges r e confs) e.source (r.version + 1) now) ∧
    (∀ f v, (f, v) ∈ e.changes → lookupField r.fields f = none →
      lookupField (applyRow r (resolvedChanges r e confs) e.source
        (r.version + 1) now).fields f = none) ∧
    (∀ f, f ∉ confs.map FieldConflict.field →
      lookupField (applyRow r (resolvedChanges r e confs) e.source
        (r.version + 1) now).fields f = lookupField r.fields f) := by
  refine ⟨getRecord_update_shape hr (conflict_path_store hr hstale hloop hop hconf),
    ?_, ?_⟩
  · intro f v hfv hnone
    show lookupField (mergeFields r.fields (resolvedChanges r e confs)) f = none
    rw [lookupField_mergeFields, lookupField_resolvedChanges]
    cases hfind : confs.find? (fun c => c.field == f) with
    | none => simp [hnone]
    | some c =>
      have hc : c ∈ confs := List.mem_of_find?_eq_some hfind
      have hcf : c.field = f := by
        have := List.find?_some hfind
        simpa using this
      have hcur := (detectConflict_mem hconf c hc).1
      rw [hcf, hnone] at hcur
      exact Option.noConfusion hcur
  · intro f hf
    show lookupField (mergeFields r.fields (resolvedChanges r e confs)) f =
      lookupField r.fields f
    rw [lookupField_mergeFields, lookupField_resolvedChanges]
    have hfind : confs.find? (fun c => c.field == f) = none := by
      rw [List.find?_eq_none]
      intro c hc hbeq
      exact hf (List.mem_map.mpr ⟨c, hc, by simpa using hbeq⟩)
    rw [hfind]
    simp

/-- Sample record for the C9 witness: only `name` is defined. -/
def c9Rec : EntityRecord :=
  { id := 1, fields := [("name", JsVal.str "Bob")], source := Source.SHEET,
    version := 1, updated_at := 10 }

/-- Sample store for the C9 witness. -/
def c9Store : Store :=
  { recs := [c9Rec], nextId := 2, conflicts := [], audit := [] }

/-- Sample event for the C9 witness: changes both `name` (conflicting) and
`nickname` (undefined on the record, so never a conflict). -/
def c9Event : SyncEvent :=
  { source := Source.DB, rowId := 1, tableId := "users", operation := "UPDATE",
    changes := [("name", JsVal.str "Alice"), ("nickname", JsVal.str "Al")],
    version := none, timestamp := some 20 }

/-- The conflict set the C9 witness detects: only `name`. -/
def c9Confs : List FieldConflict :=
  [{ field := "name", currentValue := JsVal.str "Bob",
     incomingValue := JsVal.str "Alice" }]

/-- Witness for C9: the `nickname` change is dropped (still `undefined`
after the update) while `name` is written with its resolved value. -/
theorem C9_only_resolved_conflicts_written_witness :
    getRecord (processSyncEvent c9Store c9Event 20).1 1 =
      some (applyRow c9Rec (resolvedChanges c9Rec c9Event c9Confs)
        c9Event.source (c9Rec.version + 1) 20) ∧
    lookupField (applyRow c9Rec (resolvedChanges c9Rec c9Event c9Confs)
      c9Event.source (c9Rec.version + 1) 20).fields "nickname" = none :=
  have h := C9_only_resolved_conflicts_written c9Store c9Event 20 c9Rec c9Confs
    (by decide) (by decide) (by decide) rfl (by decide)
  ⟨h.1, h.2.1 "nickname" (JsVal.str "Al") (by decide) (by decide)⟩

/-- C10: an UPDATE whose conflicts all lose (its timestamp is absent or not
strictly later than the record's `updated_at`) still mutates the record:
`version` is incremented by 1, `source` is set to the losing event's source,
`updated_at` is restamped to the processing time, and every business field
keeps its pre-event value. -/
theorem C10_losing_update_still_bumps_metadata
    (s : Store) (e : SyncEvent) (now : Nat) (r : EntityRecord)
    (confs : List FieldConflict)
    (hr : getRecord s e.rowId = some r)
    (hstale : isStaleUpdate r e = false)
    (hloop : shouldIgnoreLoopback r e.source = false)
    (hop : e.operation = "UPDATE")
    (hconf : detectConflict r e = some confs)
    (hts : ∀ ts, e.timestamp = some ts → ts ≤ r.updated_at) :
    (processSyncEvent s e now).2 =
      SyncResult.success "UPDATE" r.id (some (r.version + 1)) ∧
    getRecord (processSyncEvent s e now).1 e.rowId =
      some (applyRow r (resolvedChanges r e confs) e.source (r.version + 1) now) ∧
    (applyRow r (resolvedChanges r e confs) e.source
      (r.version + 1) now).version = r.version + 1 ∧
    (applyRow r (resolvedChanges r e confs) e.source
      (r.version + 1) now).source = e.source ∧
    (applyRow r (resolvedChanges r e confs) e.source
      (r.version + 1) now).updated_at = now ∧
    (∀ f, lookupField (applyRow r (resolvedChanges r e confs) e.source
      (r.version + 1) now).fields f = lookupField r.fields f) := by
  have hlose : ∀ c ∈ confs, lwwResolve r e c = c.currentValue := by
    intro c hc
    cases hcts : e.timestamp with
    | none => rw [lwwResolve, hcts]
    | some ts =>
      have hle := hts ts hcts
      rw [lwwResolve, hcts]
      show (if r.updated_at < ts then c.incomingValue else c.currentValue) =
        c.currentValue
      rw [if_neg (by omega)]
  refine ⟨?_, getRecord_update_shape hr (conflict_path_store hr hstale hloop hop hconf),
    rfl, rfl, rfl, ?_⟩
  · obtain ⟨cs, hres, -, -, -⟩ :=
      processSyncEvent_update_shape now hr hstale hloop hop
    exact hres
  · intro f
    show lookupField (mergeFields r.fields (resolvedChanges r e confs)) f =
      lookupField r.fields f
    rw [lookupField_mergeFields, lookupField_resolvedChanges]
    cases hfind : confs.find? (fun c => c.field == f) with
    | none => simp
    | some c =>
      have hc : c ∈ confs := List.mem_of_find?_eq_some hfind
      have hcf : c.field = f := by
        have := List.find?_some hfind
        simpa using this
      have hcur := (detectConflict_mem hconf c hc).1
      rw [hcf] at hcur
      rw [Option.map_some', hlose c hc, hcur]
      rfl

/-- Sample record for the C10 witness: `updated_at` 30 is later than the
incoming timestamp. -/
def c10Rec : EntityRecord :=
  { id := 1, fields := [("name", JsVal.str "Bob")], source := Source.SHEET,
    version := 1, updated_at := 30 }

/-- Sample store for the C10 witness. -/
def c10Store : Store :=
  { recs := [c10Rec], nextId := 2, conflicts := [], audit := [] }

/-- Sample event for the C10 witness: a DB UPDATE with an older timestamp. -/
def c10Event : SyncEvent :=
  { source := Source.DB, rowId := 1, tableId := "users", operation := "UPDATE",
    changes := [("name", JsVal.str "Alice")], version := some 2,
    timestamp := some 20 }

/-- The conflict set the C10 witness detects. -/
def c10Confs : List FieldConflict :=
  [{ field := "name", currentValue := JsVal.str "Bob",
     incomingValue := JsVal.str "Alice" }]

/-- Witness for C10: the losing DB update still bumps the version to 2,
takes over `source = DB`, restamps `updated_at`, and `name` stays `"Bob"`. -/
theorem C10_losing_update_still_bumps_metadata_witness :
    (processSyncEvent c10Store c10Event 40).2 =
      SyncResult.success "UPDATE" c10Rec.id (some (c10Rec.version + 1)) ∧
    (applyRow c10Rec (resolvedChanges c10Rec c10Event c10Confs)
      c10Event.source (c10Rec.version + 1) 40).version = c10Rec.version + 1 ∧
    (applyRow c10Rec (resolvedChanges c10Rec c10Event c10Confs)
      c10Event.source (c10Rec.version + 1) 40).source = c10Event.source ∧
    lookupField (applyRow c10Rec (resolvedChanges c10Rec c10Event c10Confs)
      c10Event.source (c10Rec.version + 1) 40).fields "name" =
      lookupField c10Rec.fields "name" :=
  have h := C10_losing_update_still_bumps_metadata c10Store c10Event 40 c10Rec
    c10Confs (by decide) (by decide) (by decide) rfl (by decide)
    (by intro ts hts; simp [c10Event] at hts; subst hts; decide)
  ⟨h.1, h.2.2.1, h.2.2.2.1, h.2.2.2.2.2 "name"⟩

/-- C6 counterexample: a header-row edit (row 1 of the sheet, in the mapped
`name` column) is not rejected by the normalizer — it yields an ordinary
sync event, contradicting the claim that header-row edits produce `null`.
(The header-row skip lives in the spreadsheet-side `onEdit` capture script,
not in the server-side normalizer.) -/
theorem C6_counterexample :
    parseSheetEvent
      { row := 1, column := 2, oldValue := none,
        newValue := JsVal.str "NameHeader", sheetName := "Data" } 7 =
      some { source := Source.SHEET, rowId := 1, tableId := "users",
             operation := "UPDATE", changes := [("name", JsVal.str "NameHeader")],
             version := none, timestamp := some 7 } := by
  decide

/-- C6 amended: the normalizer returns `null` whenever the payload has a
missing/falsy row or sheet name, edits an unmapped column, or edits the
identity (`id`) column — but not for header-row edits, which are filtered
upstream by the spreadsheet-side capture script; any mapped, non-identity
edit (whatever its row) yields a Sync Event with source SHEET, operation
UPDATE and exactly one changed field, and the HTTP layer answers 400
exactly when the normalizer returns `null`. -/
theorem C6_normalizer_rejections
    (p : SheetPayload) (now : Nat) :
    (columnMap p.column = none → parseSheetEvent p now = none) ∧
    (p.column = 1 → parseSheetEvent p now = none) ∧
    (p.row = 0 ∨ p.sheetName = "" → parseSheetEvent p now = none) ∧
    (∀ f, p.row ≠ 0 → p.sheetName ≠ "" → columnMap p.column = some f →
      f ≠ "id" → parseSheetEvent p now = some
        { source := Source.SHEET, rowId := p.row, tableId := "users",
          operation := "UPDATE", changes := [(f, p.newValue)],
          version := none, timestamp := some now }) ∧
    (∀ s, parseSheetEvent p now = none →
      sheetWebhookRoute s p now =
        (logWebhookAudit s "RECEIVED", HttpResponse.badRequest)) := by
  refine ⟨?_, ?_, ?_, ?_, ?_⟩
  · intro h
    by_cases hg : p.row = 0 ∨ p.sheetName = "" <;> simp [parseSheetEvent, hg, h]
  · intro h
    by_cases hg : p.row = 0 ∨ p.sheetName = "" <;>
      simp [parseSheetEvent, hg, h, columnMap]
  · intro h
    simp [parseSheetEvent, h]
  · intro f hrow hsheet hmap hf
    have hg : ¬ (p.row = 0 ∨ p.sheetName = "") := by
      rintro (h | h)
      · exact hrow h
      · exact hsheet h
    simp [parseSheetEvent, hg, hmap, hf]
  · intro s h
    simp [sheetWebhookRoute, h]

/-- C6 witness payloads: a mapped `email` edit on a data row, and an
unmapped-column edit. -/
def c6Good : SheetPayload :=
  { row := 2, column := 3, oldValue := none, newValue := JsVal.str "a@b",
    sheetName := "Data" }

/-- C6 witness payload hitting an unmapped column. -/
def c6Unmapped : SheetPayload :=
  { row := 2, column := 9, oldValue := none, newValue := JsVal.str "x",
    sheetName := "Data" }

/-- Witness for C6 amended: the unmapped-column edit is rejected and gets a
400 response; the mapped `email` edit yields the single-field SHEET UPDATE
event. -/
theorem C6_normalizer_rejections_witness :
    parseSheetEvent c6Unmapped 7 = none ∧
    sheetWebhookRoute
      { recs := [], nextId := 1, conflicts := [], audit := [] } c6Unmapped 7 =
      (logWebhookAudit
        { recs := [], nextId := 1, conflicts := [], audit := [] } "RECEIVED",
       HttpResponse.badRequest) ∧
    parseSheetEvent c6Good 7 = some
      { source := Source.SHEET, rowId := c6Good.row, tableId := "users",
        operation := "UPDATE", changes := [("email", c6Good.newValue)],
        version := none, timestamp := some 7 } :=
  ⟨(C6_normalizer_rejections c6Unmapped 7).1 (by decide),
   (C6_normalizer_rejections c6Unmapped 7).2.2.2.2
     { recs := [], nextId := 1, conflicts := [], audit := [] }
     ((C6_normalizer_rejections c6Unmapped 7).1 (by decide)),
   (C6_normalizer_rejections c6Good 7).2.2.2.1 "email"
     (by decide) (by decide) (by decide) (by decide)⟩

/-- C8 counterexample: a spreadsheet webhook request whose payload fails
normalization (falsy row) writes exactly one audit row, the `RECEIVED`
entry — not the at-minimum-two entries the claim asserts for invalid
requests. -/
theorem C8_counterexample :
    (sheetWebhookRoute { recs := [], nextId := 1, conflicts := [], audit := [] }
      { row := 0, column := 2, oldValue := none, newValue := JsVal.str "x",
        sheetName := "Data" } 5).1.audit = [{ status := "RECEIVED" }] ∧
    (sheetWebhookRoute { recs := [], nextId := 1, conflicts := [], audit := [] }
      { row := 0, column := 2, oldValue := none, newValue := JsVal.str "x",
        sheetName := "Data" } 5).2 = HttpResponse.badRequest := by
  decide

/-- C8 amended: on either webhook route, every request appends a `RECEIVED`
audit row on entry; a request whose payload normalizes successfully also
appends a `PROCESSED` row on exit, but a request rejected as invalid
payload appends only the single `RECEIVED` row. -/
theorem C8_audit_per_request
    (s : Store) (now : Nat) :
    (∀ p : SheetPayload, parseSheetEvent p now = none →
      (sheetWebhookRoute s p now).1.audit = s.audit ++ [{ status := "RECEIVED" }]) ∧
    (∀ (p : SheetPayload) (e : SyncEvent), parseSheetEvent p now = some e →
      (sheetWebhookRoute s p now).1.audit =
        s.audit ++ [{ status := "RECEIVED" }, { status := "PROCESSED" }]) ∧
    (∀ p : DbPayload, parseDbEvent p now = none →
      (dbWebhookRoute s p now).1.audit = s.audit ++ [{ status := "RECEIVED" }]) ∧
    (∀ (p : DbPayload) (e : SyncEvent), parseDbEvent p now = some e →
      (dbWebhookRoute s p now).1.audit =
        s.audit ++ [{ status := "RECEIVED" }, { status := "PROCESSED" }]) := by
  refine ⟨?_, ?_, ?_, ?_⟩
  · intro p h
    simp [sheetWebhookRoute, h, logWebhookAudit]
  · intro p e h
    simp [sheetWebhookRoute, h, logWebhookAudit, processSyncEvent_audit]
  · intro p h
    simp [dbWebhookRoute, h, logWebhookAudit]
  · intro p e h
    simp [dbWebhookRoute, h, logWebhookAudit, processSyncEvent_audit]

/-- Witness for C8 amended: a valid sheet edit on an empty store logs
`RECEIVED` then `PROCESSED`; an empty DB payload logs only `RECEIVED`. -/
theorem C8_audit_per_request_witness :
    (sheetWebhookRoute { recs := [], nextId := 1, conflicts := [], audit := [] }
      c6Good 7).1.audit =
      [{ status := "RECEIVED" }, { status := "PROCESSED" }] ∧
    (dbWebhookRoute { recs := [], nextId := 1, conflicts := [], audit := [] }
      { tableId := "", rowId := 0, operation := "", changes := none,
        version := none } 7).1.audit = [{ status := "RECEIVED" }] :=
  ⟨(C8_audit_per_request
      { recs := [], nextId := 1, conflicts := [], audit := [] } 7).2.1 c6Good
      { source := Source.SHEET, rowId := c6Good.row, tableId := "users",
        operation := "UPDATE", changes := [("email", c6Good.newValue)],
        version := none, timestamp := some 7 } (by decide),
   (C8_audit_per_request
      { recs := [], nextId := 1, conflicts := [], audit := [] } 7).2.2.1
      { tableId := "", rowId := 0, operation := "", changes := none,
        version := none } (by decide)⟩

/-- Sample record for the C2 counterexample: version 1, source SHEET. -/
def c2Rec : EntityRecord :=
  { id := 1, fields := [("name", JsVal.str "A")], source := Source.SHEET,
    version := 1, updated_at := 10 }

/-- Sample store for the C2 counterexample. -/
def c2Store : Store :=
  { recs := [c2Rec], nextId := 2, conflicts := [], audit := [] }

/-- Sample event for the C2 counterexample: a DB UPDATE carrying version 3
(two ahead of the record). -/
def c2Event : SyncEvent :=
  { source := Source.DB, rowId := 1, tableId := "users", operation := "UPDATE",
    changes := [("name", JsVal.str "B")], version := some 3,
    timestamp := some 20 }

/-- C2 counterexample: processing the identical versioned event twice does
NOT always end in `ignored(stale_version)`: with `event.version = 3`
against a version-1 record, the first pass applies (record becomes version
2, source DB), and the second pass is still non-stale (`3 > 2`) and is
instead ignored as `loopback`. -/
theorem C2_counterexample :
    (processSyncEvent c2Store c2Event 20).2 =
      SyncResult.success "UPDATE" 1 (some 2) ∧
    (processSyncEvent (processSyncEvent c2Store c2Event 20).1 c2Event 21).2 =
      SyncResult.ignored "loopback" ∧
    (processSyncEvent (processSyncEvent c2Store c2Event 20).1 c2Event 21).2 ≠
      SyncResult.ignored "stale_version" := by
  decide

/-- C2 amended: (a) every sync event whose version is present, nonzero
(the JS truthiness guard) and at most the record's version is terminal
`ignored(stale_version)` with the store untouched; (b) replaying an UPDATE
whose version is exactly one above the record's version (the value an
applied update leaves behind) yields `applied` then
`ignored(stale_version)`, the second pass leaving the store of the first
application unchanged. -/
theorem C2_stale_version_idempotency :
    (∀ (s : Store) (e : SyncEvent) (now : Nat) (r : EntityRecord) (v : Nat),
      getRecord s e.rowId = some r → e.version = some v → v ≠ 0 →
      v ≤ r.version →
      processSyncEvent s e now = (s, SyncResult.ignored "stale_version")) ∧
    (∀ (s : Store) (e : SyncEvent) (now now' : Nat) (r : EntityRecord),
      getRecord s e.rowId = some r → e.operation = "UPDATE" →
      e.version = some (r.version + 1) →
      ¬(r.source = e.source ∧ e.source ≠ Source.MANUAL) →
      (processSyncEvent s e now).2 =
        SyncResult.success "UPDATE" r.id (some (r.version + 1)) ∧
      processSyncEvent (processSyncEvent s e now).1 e now' =
        ((processSyncEvent s e now).1, SyncResult.ignored "stale_version")) := by
  constructor
  · intro s e now r v hr hv hv0 hle
    have hstale : isStaleUpdate r e = true := by
      rw [isStaleUpdate, hv]
      have hb : (v == 0) = false := by simp [hv0]
      simp [hb, hle]
    exact processSyncEvent_stale hr hstale
  · intro s e now now' r hr hop hv hnl
    have hstale : isStaleUpdate r e = false := by
      rw [isStaleUpdate, hv]
      simp
    have hloop : shouldIgnoreLoopback r e.source = false := by
      rw [shouldIgnoreLoopback]
      by_cases hs : r.source = e.source
      · have hm : e.source = Source.MANUAL := by
          by_contra hm
          exact hnl ⟨hs, hm⟩
        simp [hs, hm]
      · simp [hs]
    obtain ⟨cs, hres, hrecs, -, -⟩ :=
      processSyncEvent_update_shape now hr hstale hloop hop
    refine ⟨hres, ?_⟩
    have hget2 := getRecord_update_shape hr hrecs
    have hstale2 : isStaleUpdate
        (applyRow r cs e.source (r.version + 1) now) e = true := by
      rw [isStaleUpdate, hv]
      simp [applyRow]
    exact processSyncEvent_stale hget2 hstale2

/-- Witness record for part (b) of the C2 amended claim. -/
def c2bRec : EntityRecord :=
  { id := 1, fields := [("name", JsVal.str "A")], source := Source.SHEET,
    version := 1, updated_at := 10 }

/-- Witness store for part (b) of the C2 amended claim. -/
def c2bStore : Store :=
  { recs := [c2bRec], nextId := 2, conflicts := [], audit := [] }

/-- Witness event for part (b): DB UPDATE with version exactly 2. -/
def c2bEvent : SyncEvent :=
  { source := Source.DB, rowId := 1, tableId := "users", operation := "UPDATE",
    changes := [("name", JsVal.str "B")], version := some 2,
    timestamp := some 20 }

/-- Witness for C2 amended: a version-1 event against the version-1 record
is ignored as stale with the store untouched; the version-2 replay story
yields `applied` then `ignored(stale_version)`. -/
theorem C2_stale_version_idempotency_witness :
    processSyncEvent c2bStore
      { source := Source.DB, rowId := 1, tableId := "users",
        operation := "UPDATE", changes := [("name", JsVal.str "B")],
        version := some 1, timestamp := some 20 } 20 =
      (c2bStore, SyncResult.ignored "stale_version") ∧
    ((processSyncEvent c2bStore c2bEvent 20).2 =
      SyncResult.success "UPDATE" c2bRec.id (some (c2bRec.version + 1)) ∧
    processSyncEvent (processSyncEvent c2bStore c2bEvent 20).1 c2bEvent 21 =
      ((processSyncEvent c2bStore c2bEvent 20).1,
       SyncResult.ignored "stale_version")) :=
  ⟨C2_stale_version_idempotency.1 c2bStore
    { source := Source.DB, rowId := 1, tableId := "users",
      operation := "UPDATE", changes := [("name", JsVal.str "B")],
      version := some 1, timestamp := some 20 } 20 c2bRec 1
    (by decide) rfl (by decide) (by decide),
   C2_stale_version_idempotency.2 c2bStore c2bEvent 20 21 c2bRec
    (by decide) rfl rfl (by decide)⟩

/-- C4: version monotonicity. (a) A record created by INSERT starts at
version 1. (b) No engine operation ever decreases a record's version: for
every well-formed store, a surviving row with the same id as a pre-existing
row has a version at least as large. (c) After `N` successful applied
UPDATEs of a row, its version has grown by exactly `N` — so starting from a
fresh insert (version 1) it equals `1 + N`. -/
theorem C4_version_monotonicity :
    (∀ (s : Store) (e : SyncEvent) (now : Nat),
      StoreWF s → getRecord s e.rowId = none → e.operation = "INSERT" →
      recVersion (processSyncEvent s e now).1 s.nextId = some 1) ∧
    (∀ (s : Store) (e : SyncEvent) (now : Nat) (r r' : EntityRecord),
      StoreWF s → r ∈ s.recs → r' ∈ (processSyncEvent s e now).1.recs →
      r'.id = r.id → r.version ≤ r'.version) ∧
    (∀ (s : Store) (es : List SyncEvent) (now id v : Nat),
      recVersion s id = some v → allApplied s id now es = true →
      recVersion (processAll s es now) id = some (v + es.length)) := by
  refine ⟨?_, ?_, ?_⟩
  · intro s e now hwf hrec hop
    rw [processSyncEvent_insert hrec hop, recVersion, getRecord]
    show (findRec (s.recs ++ [_]) s.nextId).map _ = _
    rw [findRec_append_new (fun x hx => Nat.ne_of_lt (hwf.2 x hx)) _ rfl]
    rfl
  · intro s e now r r' hwf hr hr' hid
    cases hrec : getRecord s e.rowId with
    | none =>
      by_cases hop : e.operation = "INSERT"
      · rw [processSyncEvent_insert hrec hop] at hr'
        have hr'' : r' ∈ s.recs ++
            [{ id := s.nextId, fields := e.changes, source := Source.SHEET,
               version := 1, updated_at := now }] := hr'
        rcases List.mem_append.mp hr'' with h | h
        · exact le_of_eq (by rw [nodup_id_eq hwf.1 h hr hid])
        · exfalso
          have h1 : r' = { id := s.nextId
                           fields := e.changes
                           source := Source.SHEET
                           version := 1
                           updated_at := now } := by
            simpa using h
          have h2 := hwf.2 r hr
          rw [← hid, h1] at h2
          exact Nat.lt_irrefl _ h2
      · rw [processSyncEvent_notFound hrec hop] at hr'
        exact le_of_eq (by rw [nodup_id_eq hwf.1 hr' hr hid])
    | some rf =>
      have hrfmem : rf ∈ s.recs := findRec_mem hrec
      cases hstale : isStaleUpdate rf e with
      | true =>
        rw [processSyncEvent_stale hrec hstale] at hr'
        exact le_of_eq (by rw [nodup_id_eq hwf.1 hr' hr hid])
      | false =>
        cases hloop : shouldIgnoreLoopback rf e.source with
        | true =>
          rw [processSyncEvent_loopback hrec hstale hloop] at hr'
          exact le_of_eq (by rw [nodup_id_eq hwf.1 hr' hr hid])
        | false =>
          cases hconf : detectConflict rf e with
          | none =>
            rw [processSyncEvent_noConflict hrec hstale hloop hconf] at hr'
            exact applyUpdate_version_mono hwf.1 hrfmem hr hr' hid
          | some confs =>
            rw [processSyncEvent_conflict hrec hstale hloop hconf] at hr'
            simp only [resolveConflict] at hr'
            exact applyUpdate_version_mono
              (s := logConflict s e.tableId rf.id confs
                (resolvedChanges rf e confs))
              hwf.1 hrfmem hr hr' hid
  · intro s es now id v
    induction es generalizing s v with
    | nil =>
      intro hv _
      simpa [processAll] using hv
    | cons e es ih =>
      intro hv hall
      rw [allApplied, Bool.and_eq_true] at hall
      obtain ⟨h1, h2⟩ := hall
      obtain ⟨nv, hres⟩ : ∃ nv, (processSyncEvent s e now).2 =
          SyncResult.success "UPDATE" id nv := by
        cases hres : (processSyncEvent s e now).2 with
        | success op rowId nv' =>
          rw [hres] at h1
          simp only [isAppliedUpdate, Bool.and_eq_true, beq_iff_eq] at h1
          refine ⟨nv', ?_⟩
          rw [h1.1, h1.2]
        | errRecordNotFound =>
          rw [hres] at h1
          simp [isAppliedUpdate] at h1
        | ignored reason =>
          rw [hres] at h1
          simp [isAppliedUpdate] at h1
        | errUnknownOperation =>
          rw [hres] at h1
          simp [isAppliedUpdate] at h1
      obtain ⟨v', hv', hnv, hv''⟩ := applied_step hres
      rw [hv] at hv'
      have hvv : v = v' := Option.some.inj hv'
      subst hvv
      have hstep := ih (processSyncEvent s e now).1 (v + 1) hv'' h2
      rw [List.length_cons,
        show processAll s (e :: es) now =
          processAll (processSyncEvent s e now).1 es now from rfl, hstep]
      congr 1
      omega

/-- Record for the C4 witness. -/
def c4Rec : EntityRecord :=
  { id := 1, fields := [("name", JsVal.str "A")], source := Source.SHEET,
    version := 1, updated_at := 10 }

/-- Store for the C4 witness. -/
def c4Store : Store :=
  { recs := [c4Rec], nextId := 2, conflicts := [], audit := [] }

/-- Event for the C4 witness: a DB UPDATE that is applied. -/
def c4Event : SyncEvent :=
  { source := Source.DB, rowId := 1, tableId := "users", operation := "UPDATE",
    changes := [("name", JsVal.str "B")], version := some 2,
    timestamp := some 20 }

/-- Witness for C4: on an empty store an INSERT creates version 1; the
applied DB update never lowers the version of row 1; one applied update
moves the version from 1 to `1 + 1`. -/
theorem C4_version_monotonicity_witness :
    recVersion (processSyncEvent
      { recs := [], nextId := 1, conflicts := [], audit := [] }
      { source := Source.SHEET, rowId := 5, tableId := "users",
        operation := "INSERT", changes := [("name", JsVal.str "John")],
        version := none, timestamp := some 5 } 5).1 1 = some 1 ∧
    c4Rec.version ≤
      ({ id := 1, fields := [("name", JsVal.str "B"), ("name", JsVal.str "B")],
         source := Source.DB, version := 2,
         updated_at := 20 } : EntityRecord).version ∧
    recVersion (processAll c4Store [c4Event] 20) 1 = some (1 + 1) :=
  ⟨(C4_version_monotonicity.1
      { recs := [], nextId := 1, conflicts := [], audit := [] }
      { source := Source.SHEET, rowId := 5, tableId := "users",
        operation := "INSERT", changes := [("name", JsVal.str "John")],
        version := none, timestamp := some 5 } 5
      (by simp [StoreWF]) (by decide) rfl),
   (C4_version_monotonicity.2.1 c4Store c4Event 20 c4Rec
      { id := 1, fields := [("name", JsVal.str "B"), ("name", JsVal.str "B")],
        source := Source.DB, version := 2, updated_at := 20 }
      (by constructor <;> decide) (by decide) (by decide) (by decide)),
   (C4_version_monotonicity.2.2 c4Store [c4Event] 20 1 1
      (by decide) (by decide))⟩

end SheetSync
